import Mathlib

/-!
# Verification of the dynosaur parameter-formatting layer (`src/utils.js`)

Shallow embedding of the JavaScript source in Lean 4.  JavaScript values are
modelled by the inductive `JVal`; numbers are modelled as integers (the spec
explicitly places floating-point text round-trip fidelity outside scope, and
every claim uses integral numbers).  Numeric strings are modelled as canonical
decimal integer numerals (`parseIntString`); other strings coerce to `NaN`,
matching JavaScript on every input appearing in the claims.

The lodash predicates used by the source are modelled by their documented
semantics on `JVal`:
* `_.isArray` / `_.isNumber` / `_.isString` match the corresponding
  constructors (`_.isNumber` is also true of `NaN`);
* `_.isObject` is true of arrays and plain objects, false for primitives and
  for `null`;
* `_.every(xs, Number)` / `_.every(xs, String)` test the truthiness of the
  JavaScript coercions `Number(x)` / `String(x)` for each element.
-/

/-- A JavaScript value: number (integral model), `NaN`, string, boolean,
`null`, `undefined`, array, or plain object (association list of fields,
keys assumed distinct as in a JS object, in insertion order). -/
inductive JVal where
  | num (n : Int)
  | nan
  | str (s : String)
  | bool (b : Bool)
  | null
  | undef
  | arr (elems : List JVal)
  | obj (fields : List (String × JVal))

/-- JavaScript truthiness: `0`, `NaN`, `""`, `false`, `null`, `undefined`
are falsy; every other value (including `[]` and `{}`) is truthy. -/
def truthy : JVal → Bool
  | .num n => n != 0
  | .nan => false
  | .str s => s != ""
  | .bool b => b
  | .null => false
  | .undef => false
  | .arr _ => true
  | .obj _ => true

mutual

/-- JavaScript string coercion `String(v)` (equivalently `v.toString()` for
non-nullish `v`): numbers print in decimal, arrays join their elements with
`","` (with `null`/`undefined` elements joining as `""`), plain objects
print as `"[object Object]"`. -/
def jsToString : JVal → String
  | .num n => toString n
  | .nan => "NaN"
  | .str s => s
  | .bool b => if b then "true" else "false"
  | .null => "null"
  | .undef => "undefined"
  | .arr xs => String.intercalate "," (jsJoinList xs)
  | .obj _ => "[object Object]"

/-- Element-wise stringification used by `Array.prototype.join`:
`null` and `undefined` elements become the empty string. -/
def jsJoinList : List JVal → List String
  | [] => []
  | x :: xs =>
    (match x with
     | .null => ""
     | .undef => ""
     | v => jsToString v) :: jsJoinList xs

end

/-- Value of a decimal digit character. -/
def digitVal (c : Char) : Option Nat :=
  if '0' ≤ c ∧ c ≤ '9' then some (c.toNat - 48) else none

/-- Parse a non-empty all-digit character list as a natural number. -/
def parseNatDigits : List Char → Option Nat
  | [] => none
  | cs => cs.foldl (fun acc c => do
      let a ← acc
      let d ← digitVal c
      return a * 10 + d) (some 0)

/-- Parse a canonical (optionally negated) decimal integer numeral;
`none` models `NaN`. -/
def parseIntString (s : String) : Option Int :=
  match s.toList with
  | '-' :: cs => (parseNatDigits cs).map (fun n => -(n : Int))
  | cs => (parseNatDigits cs).map (fun n => (n : Int))

/-- JavaScript numeric coercion of a string, `Number(s)`:
the empty string coerces to `0`; a decimal integer numeral parses; anything
else is `NaN` (modelled as `none`). -/
def jsStringToNumber (s : String) : Option Int :=
  if s = "" then some 0 else parseIntString s

/-- JavaScript numeric coercion `Number(v)`; `none` models `NaN`.
Arrays coerce through their string form, plain objects to `NaN`. -/
def jsToNumber : JVal → Option Int
  | .num n => some n
  | .nan => none
  | .str s => jsStringToNumber s
  | .bool b => some (if b then 1 else 0)
  | .null => some 0
  | .undef => none
  | .arr xs => jsStringToNumber (jsToString (.arr xs))
  | .obj _ => none

/-- Truthiness of `Number(v)` — the per-element test of
`_.every(item, Number)` in `formatToDynamoItem` (line 65). -/
def numberTruthy (v : JVal) : Bool :=
  match jsToNumber v with
  | some n => n != 0
  | none => false

/-- Truthiness of `String(v)` — the per-element test of
`_.every(item, String)` in `formatToDynamoItem` (line 71). -/
def stringTruthy (v : JVal) : Bool :=
  jsToString v != ""

/-- A thrown JavaScript error (all errors raised by the source are
`TypeError`s, distinguished by message). -/
inductive JsError where
  | typeError (msg : String)

/-- `formatToDynamoItem` (utils.js lines 62–93), the value encoder.

Branch order follows the source: `_.isArray`, `_.isNumber`, `_.isString`,
`_.isObject`, `!item`.  A truthy value that is none of array / number /
string / object — i.e. the boolean `true` — falls through every branch and
returns the initial empty object `{}`.

In the `NS` branch the source calls `num.toString()` on each element; `null`
and `undefined` elements cannot reach that branch (their `Number` coercion is
falsy), so total `jsToString` is a faithful model of the method call there. -/
def formatToDynamoItem : JVal → Except JsError JVal
  | .arr xs =>
    if xs.all numberTruthy then
      .ok (.obj [("NS", .arr (xs.map (fun num => .str (jsToString num))))])
    else if xs.all stringTruthy then
      .ok (.obj [("SS", .arr xs)])
    else
      .error (.typeError "Expected homogenous array of numbers or strings")
  | .num n => .ok (.obj [("N", .str (toString n))])
  | .nan => .ok (.obj [("N", .str "NaN")])
  | .str s => .ok (.obj [("S", .str s)])
  | .obj _ => .error (.typeError "Object is not serializable to a dynamo data type")
  | .bool b =>
    if b then .ok (.obj [])
    else .error (.typeError "Cannot call convert_to_dynamo() with no arguments")
  | .null => .error (.typeError "Cannot call convert_to_dynamo() with no arguments")
  | .undef => .error (.typeError "Cannot call convert_to_dynamo() with no arguments")

/-- JavaScript property read `v.k`: a key lookup on an object, `undefined` on
any non-object non-nullish value (primitives and arrays carry none of the
tag properties read by the decoder), and a thrown `TypeError` on `null` or
`undefined`. -/
def getProp : JVal → String → Except JsError JVal
  | .obj fields, k => .ok (((fields.find? (fun f => f.1 == k)).map (fun f => f.2)).getD .undef)
  | .null, k => .error (.typeError ("Cannot read properties of null (reading " ++ k ++ ")"))
  | .undef, k => .error (.typeError ("Cannot read properties of undefined (reading " ++ k ++ ")"))
  | _, _ => .ok JVal.undef

/-- `parseFloat` applied to the string coercion of a value, restricted to the
integral model: a canonical decimal integer numeral parses, anything else is
`NaN`. -/
def jsParseFloat (v : JVal) : JVal :=
  match parseIntString (jsToString v) with
  | some n => .num n
  | none => .nan

/-- `_.map(v, parseFloat)` as used in the `NS` branch of the decoder
(line 131): maps over an array's elements, over a string's characters, over
an object's field values; other values have no own enumerable keys and map
to the empty array. -/
def lodashMapParseFloat : JVal → List JVal
  | .arr xs => xs.map jsParseFloat
  | .str s => s.toList.map (fun c => jsParseFloat (.str (String.singleton c)))
  | .obj fields => fields.map (fun f => jsParseFloat f.2)
  | _ => []

/-- One iteration of the `_.transform` callback in `formatFromDynamoItem`
(lines 120–134): read the tag properties of the field value in priority
order `S`, `SS`, `N`, `NS` (each read throws if the value is nullish);
the first truthy tag decides the decoded value, no truthy tag means the
field is dropped (`none`). -/
def decodeTagged (val : JVal) : Except JsError (Option JVal) := do
  let s ← getProp val "S"
  if truthy s then
    return some s
  else
    let ss ← getProp val "SS"
    if truthy ss then
      return some ss
    else
      let n ← getProp val "N"
      if truthy n then
        return some (jsParseFloat n)
      else
        let ns ← getProp val "NS"
        if truthy ns then
          return some (.arr (lodashMapParseFloat ns))
        else
          return none

/-- Drop the trailing unset indexes of a sparse-array accumulator: in the
array case of the decoder, `res[key] = …` assignments determine the array's
length, and unset indexes before the last assignment read as `undefined`. -/
def sparseToArr (xs : List (Option JVal)) : List JVal :=
  ((xs.reverse.dropWhile Option.isNone).reverse).map (fun o => o.getD .undef)

/-- The `_.transform` pass over an array: run the tag-decoding callback on
each element, recording for each index whether `res[index]` was assigned. -/
def decodeSparse : List JVal → Except JsError (List (Option JVal))
  | [] => .ok []
  | x :: xs => do
    let d ← decodeTagged x
    let rest ← decodeSparse xs
    return d :: rest

/-- The `_.transform` pass over a plain object: run the tag-decoding
callback on each field value in insertion order, keeping the fields whose
value carries a truthy recognized tag. -/
def decodeFields : List (String × JVal) → Except JsError (List (String × JVal))
  | [] => .ok []
  | f :: fs => do
    let d ← decodeTagged f.2
    let rest ← decodeFields fs
    match d with
    | some v => return (f.1, v) :: rest
    | none => return rest

mutual

/-- `formatFromDynamoItem` (utils.js lines 111–138), the decoder.

For an array the source first recurses into every element (lines 114–118,
building a local object that is then unconditionally overwritten, since
lodash's `_.isObject` is true of arrays) — errors thrown during that dead
recursion still propagate, so it is modelled before the `_.transform` pass.
The transform pass over an array accumulates into a fresh sparse array;
over a plain object it accumulates decoded fields in insertion order,
dropping fields whose value has no truthy recognized tag.  Inputs that are
neither arrays nor objects return the initial empty object `{}`. -/
def formatFromDynamoItem : JVal → Except JsError JVal
  | .arr xs => do
    let _ ← decodeEach xs
    let decoded ← decodeSparse xs
    return .arr (sparseToArr decoded)
  | .obj fields => do
    let out ← decodeFields fields
    return .obj out
  | _ => .ok (.obj [])

/-- The dead recursive pass of lines 114–118: decode every element, keeping
only the thrown-error effect. -/
def decodeEach : List JVal → Except JsError (List JVal)
  | [] => .ok []
  | x :: xs => do
    let v ← formatFromDynamoItem x
    let rest ← decodeEach xs
    return v :: rest

end

/-- A caller-supplied key descriptor `{ name, type }`. -/
structure KeyDesc where
  name : String
  type : String
  deriving DecidableEq

/-- One entry of `AttributeDefinitions`. -/
structure AttrDef where
  AttributeName : String
  AttributeType : String
  deriving DecidableEq

/-- One entry of `KeySchema`. -/
structure KeySchemaEntry where
  AttributeName : String
  KeyType : String
  deriving DecidableEq

/-- The object built by `formatSchemaParams`. -/
structure SchemaParams where
  AttributeDefinitions : List AttrDef
  KeySchema : List KeySchemaEntry
  deriving DecidableEq

/-- `formatSchemaParams` (utils.js lines 7–25): for each key, in order,
push an attribute definition and a key-schema entry whose `KeyType` is
`HASH` at index `0` (`index ? 'RANGE' : 'HASH'` with index `0` falsy) and
`RANGE` at every later index. -/
def formatSchemaParams (keys : List KeyDesc) : SchemaParams :=
  keys.enum.foldl
    (fun params ik =>
      { AttributeDefinitions :=
          params.AttributeDefinitions ++ [⟨ik.2.name, ik.2.type⟩],
        KeySchema :=
          params.KeySchema ++ [⟨ik.2.name, if ik.1 = 0 then "HASH" else "RANGE"⟩] })
    ⟨[], []⟩

/-- The fixed `ProvisionedThroughput` block. -/
structure ThroughputParams where
  ReadCapacityUnits : Int
  WriteCapacityUnits : Int
  deriving DecidableEq

/-- The caller-supplied `params` object of `createTable`: the four fields
the function touches (`none` models an absent JS property), plus the other
caller-supplied properties, which the function never reads or writes. -/
structure CreateTableParams where
  TableName : Option String := none
  AttributeDefinitions : Option (List AttrDef) := none
  KeySchema : Option (List KeySchemaEntry) := none
  ProvisionedThroughput : Option ThroughputParams := none
  otherFields : List (String × JVal) := []

/-- `createTable` (utils.js lines 34–56): set `TableName`, derive the key
schema from the hash key and optional range key, set `AttributeDefinitions`
to the caller-supplied list (`params.AttributeDefinitions || []`) followed by
the derived definitions, overwrite `KeySchema` and `ProvisionedThroughput`,
and return the (mutated) `params` object. -/
def createTable (tableName : String) (hashKey : KeyDesc) (rangeKey : Option KeyDesc)
    (params : CreateTableParams) : CreateTableParams :=
  let keys := [hashKey] ++ (match rangeKey with | some rk => [rk] | none => [])
  let params := { params with TableName := some tableName }
  let keys := formatSchemaParams keys
  let attributes := params.AttributeDefinitions.getD []
  { params with
    AttributeDefinitions := some (attributes ++ keys.AttributeDefinitions),
    KeySchema := some keys.KeySchema,
    ProvisionedThroughput := some ⟨1, 1⟩ }

/-- The object built by `conditionBuilder` when it does not return `null`. -/
structure ConditionResult where
  ConditionExpression : String
  deriving DecidableEq

/-- The `condition` argument of `conditionBuilder`; absent JS properties are
modelled as `undefined`. -/
structure Condition where
  unique : JVal := .undef
  equals : JVal := JVal.undef

/-- `conditionBuilder` (utils.js lines 157–177).  The guard
`condition.unique && _.isArray(condition.unique)` passes exactly when
`unique` is an array (arrays are truthy); a non-array `unique` falls through
to the empty `equals` branch and the function returns the initial `null`.
When the guard passes, the `attribute_not_exists` fragments are pushed only
if every key coerces to a truthy string, but the joined expression object is
built unconditionally (an empty fragment list joins to `""`). -/
def conditionBuilder (condition : Condition) : Option ConditionResult :=
  match condition.unique with
  | .arr keys =>
    let conditionArray :=
      if keys.all stringTruthy then
        keys.map (fun key => "attribute_not_exists(" ++ jsToString key ++ ")")
      else []
    some { ConditionExpression := String.intercalate " AND " conditionArray }
  | _ => none

/-- The object built by `updateItem`.  `ExpressionAttributeNames` and
`ExpressionAttributeValues` are JS objects, modelled as association lists in
insertion order. -/
structure UpdateItemParams where
  ExpressionAttributeNames : List (String × String)
  ExpressionAttributeValues : List (String × JVal)
  UpdateExpression : String

/-- JS property assignment `o[k] = v` on an object modelled as an
association list: overwrite in place if the key exists, append otherwise. -/
def objSet {α : Type} : List (String × α) → String → α → List (String × α)
  | [], k, v => [(k, v)]
  | f :: fs, k, v => if f.1 = k then (k, v) :: fs else f :: objSet fs k v

/-- The `_.forIn` loop of `updateItem` (lines 191–195), threading the three
accumulators.  The encoder may throw, which aborts the loop; the fragments
pushed before the throw are discarded with the local `params` object. -/
def updateItemLoop :
    List (String × JVal) →
    List (String × String) × List (String × JVal) × List String →
    Except JsError (List (String × String) × List (String × JVal) × List String)
  | [], acc => .ok acc
  | kv :: rest, (names, values, exprs) => do
    let dv ← formatToDynamoItem kv.2
    updateItemLoop rest
      (objSet names ("#" ++ kv.1 ++ "Attribute") kv.1,
       objSet values (":" ++ kv.1 ++ "Value") dv,
       exprs ++ ["#" ++ kv.1 ++ "Attribute = :" ++ kv.1 ++ "Value"])

/-- `updateItem` (utils.js lines 183–200): for each field, in insertion
order, push the assignment fragment and bind the name and value
placeholders; finally join the fragments after `"SET "`. -/
def updateItem (keys : List (String × JVal)) : Except JsError UpdateItemParams := do
  let (names, values, exprs) ← updateItemLoop keys ([], [], [])
  return { ExpressionAttributeNames := names,
           ExpressionAttributeValues := values,
           UpdateExpression := "SET " ++ String.intercalate ", " exprs }

/-- Is this value a string? -/
def isStringJVal : JVal → Bool
  | .str _ => true
  | _ => false

/-- Is this value `null` or `undefined`? -/
def isNullish : JVal → Bool
  | .null => true
  | .undef => true
  | _ => false

/-- The spec-side well-formedness predicate on a typed attribute: a
single-entry mapping whose only key is one of the four recognized tags. -/
def isSingleRecognizedTag : JVal → Bool
  | .obj [(t, _)] => t == "N" || t == "S" || t == "NS" || t == "SS"
  | _ => false

/-- The spec-side payload predicate: numeric payloads (under `N` and `NS`)
are carried as text. -/
def numericPayloadIsText : JVal → Bool
  | .obj [("N", p)] => isStringJVal p
  | .obj [("NS", .arr ps)] => ps.all isStringJVal
  | .obj [("NS", _)] => false
  | _ => true

/-- Is this `Except` a success? -/
def isOkE {ε α : Type} : Except ε α → Bool
  | .ok _ => true
  | .error _ => false

/-- The tag read the decoder performs on an object-valued field: the same
own-property lookup as `getProp` on an object, which cannot throw. -/
def tagRead (fields : List (String × JVal)) (k : String) : JVal :=
  (((fields.find? (fun f => f.1 == k)).map (fun f => f.2)).getD .undef)

/-- The spec-side predicate "this typed attribute carries no recognized tag
among S, SS, N, NS": none of the four tag reads yields a truthy value —
true of the empty attribute, of an attribute with only unrecognized tags
such as one tagged `B`, and of one whose recognized tags are all falsy. -/
def carriesNoRecognizedTag (fields : List (String × JVal)) : Bool :=
  !truthy (tagRead fields "S") && !truthy (tagRead fields "SS") &&
  !truthy (tagRead fields "N") && !truthy (tagRead fields "NS")

/-! ## Helper lemmas -/

/-- `Number(n)` is truthy exactly for nonzero numbers. -/
theorem numberTruthy_num (n : Int) : numberTruthy (.num n) = (n != 0) := rfl

/-- `String(v)` is falsy exactly when the coercion is the empty string. -/
theorem stringTruthy_eq_false_iff (v : JVal) :
    stringTruthy v = false ↔ jsToString v = "" := by
  simp [stringTruthy]

/-! ## Claims -/

/-- C6: `Encode(null)` and `Encode(undefined)` always raise the
missing-argument error (the source's
`TypeError: Cannot call convert_to_dynamo() with no arguments`,
which the spec names `MissingArgument`); neither returns a typed
attribute. -/
theorem claim_C6_theorem :
    formatToDynamoItem .null =
      .error (.typeError "Cannot call convert_to_dynamo() with no arguments") ∧
    formatToDynamoItem .undef =
      .error (.typeError "Cannot call convert_to_dynamo() with no arguments") :=
  ⟨rfl, rfl⟩

/-- C10: `conditionBuilder` on a condition whose `unique` key is the empty
array returns an object (not `null`) whose `ConditionExpression` is the
empty string, even though no `attribute_not_exists` fragment was pushed. -/
theorem claim_C10_theorem :
    conditionBuilder { unique := .arr [] } = some { ConditionExpression := "" } :=
  rfl

/-- Closed form of the `formatSchemaParams` fold, for any starting index and
accumulator. -/
theorem formatSchemaParams_aux (keys : List KeyDesc) (i : Nat) (acc : SchemaParams) :
    (List.enumFrom i keys).foldl
      (fun params ik =>
        { AttributeDefinitions :=
            params.AttributeDefinitions ++ [⟨ik.2.name, ik.2.type⟩],
          KeySchema :=
            params.KeySchema ++ [⟨ik.2.name, if ik.1 = 0 then "HASH" else "RANGE"⟩] })
      acc =
    { AttributeDefinitions := acc.AttributeDefinitions ++ keys.map (fun k => ⟨k.name, k.type⟩),
      KeySchema := acc.KeySchema ++
        (List.enumFrom i keys).map (fun ik => ⟨ik.2.name, if ik.1 = 0 then "HASH" else "RANGE"⟩) } := by
  induction keys generalizing i acc with
  | nil => simp
  | cons k ks ih =>
    simp only [List.enumFrom, List.foldl, List.map, ih]
    simp

/-- C8: for every list of key descriptors, `formatSchemaParams` appends, for
the descriptor at position `i`, an attribute definition `{name, type}` and a
key-schema entry whose `KeyType` is `HASH` when `i = 0` and `RANGE`
otherwise; the hash key is first and input order is preserved in both
output lists (stated as closed forms of both lists, where the indexed map
over `keys.enum` records exactly the position-dependent `KeyType` rule). -/
theorem claim_C8_theorem (keys : List KeyDesc) :
    (formatSchemaParams keys).AttributeDefinitions = keys.map (fun k => ⟨k.name, k.type⟩) ∧
    (formatSchemaParams keys).KeySchema =
      keys.enum.map (fun ik => ⟨ik.2.name, if ik.1 = 0 then "HASH" else "RANGE"⟩) := by
  unfold formatSchemaParams
  rw [List.enum, formatSchemaParams_aux]
  simp

/-- C7: `createTable` returns the caller's `params` structure with
`TableName` set, `AttributeDefinitions` set to the caller-supplied
definitions (`[]` when absent) followed — appended, not prepended — by the
derived key definitions, `KeySchema` overwritten with the derived list
(hash first, then range when present), `ProvisionedThroughput` overwritten
with read = write = 1, and every other caller-supplied field untouched
(the value-level rendering of "mutates and returns the same object"). -/
theorem claim_C7_theorem (tn : String) (hk : KeyDesc) (rk : Option KeyDesc) (p : CreateTableParams) :
    createTable tn hk rk p =
      { TableName := some tn,
        AttributeDefinitions := some (p.AttributeDefinitions.getD [] ++
          (⟨hk.name, hk.type⟩ :: (rk.map (fun r => (⟨r.name, r.type⟩ : AttrDef))).toList)),
        KeySchema := some
          (⟨hk.name, "HASH"⟩ :: (rk.map (fun r => (⟨r.name, "RANGE"⟩ : KeySchemaEntry))).toList),
        ProvisionedThroughput := some ⟨1, 1⟩,
        otherFields := p.otherFields } := by
  cases rk <;> rfl

/-- C1 is false as stated: `[0]` is an array whose elements are all
numbers, yet `Encode([0])` returns the string-set attribute `{SS: [0]}`
(lodash `_.every([0], Number)` is false because `Number(0)` is falsy), not
the number-set `{NS: ["0"]}` the claim requires. -/
theorem claim_C1_counterexample :
    formatToDynamoItem (.arr [.num 0]) = .ok (.obj [("SS", .arr [.num 0])]) ∧
    JVal.obj [("SS", .arr [.num 0])] ≠ .obj [("NS", .arr [.str (toString (0 : Int))])] :=
  ⟨rfl, by simp⟩

/-- C1 (amended): for every array whose elements are all *nonzero* numbers,
`Encode` returns `{NS: [stringified numbers...]}`, preserving order. -/
theorem claim_C1_theorem (ns : List Int) (h : ∀ n ∈ ns, n ≠ 0) :
    formatToDynamoItem (.arr (ns.map .num)) =
      .ok (.obj [("NS", .arr (ns.map (fun n => .str (toString n))))]) := by
  have hall : (ns.map JVal.num).all numberTruthy = true := by
    rw [List.all_eq_true]
    intro e he
    obtain ⟨n, hn, rfl⟩ := List.mem_map.mp he
    simpa [numberTruthy, jsToNumber] using h n hn
  simp only [formatToDynamoItem]
  rw [hall]
  simp [List.map_map, Function.comp, jsToString]

/-- C1 witness: the amended claim at the concrete array `[1, -2]`. -/
theorem claim_C1_witness :
    (∀ n ∈ ([1, -2] : List Int), n ≠ 0) ∧
    formatToDynamoItem (.arr (([1, -2] : List Int).map .num)) =
      .ok (.obj [("NS", .arr (([1, -2] : List Int).map (fun n => .str (toString n))))]) :=
  ⟨by decide, claim_C1_theorem [1, -2] (by decide)⟩

/-- C2 is false as stated: the mixed numeric/string array `[1, "a"]` does
not raise `TypeMismatch` — it is encoded as the string-set attribute
`{SS: [1, "a"]}` (every element has a truthy `String` coercion). -/
theorem claim_C2_counterexample :
    formatToDynamoItem (.arr [.num 1, .str "a"]) =
      .ok (.obj [("SS", .arr [.num 1, .str "a"])]) ∧
    isOkE (formatToDynamoItem (.arr [.num 1, .str "a"])) = true :=
  ⟨rfl, rfl⟩

/-- C2 (amended): `Encode` on an array raises `TypeMismatch` exactly when
some element has a falsy `Number` coercion *and* some element's `String`
coercion is the empty string; in particular, an array with some element
whose `Number` coercion is falsy but whose elements all stringify non-empty
(such as the mixed `[1, "a"]`) never raises — it is encoded as the
string-set attribute over the raw elements. -/
theorem claim_C2_theorem (xs : List JVal) :
    (formatToDynamoItem (.arr xs) =
        .error (.typeError "Expected homogenous array of numbers or strings") ↔
      ((∃ e ∈ xs, numberTruthy e = false) ∧ (∃ e ∈ xs, jsToString e = ""))) ∧
    (((∃ e ∈ xs, numberTruthy e = false) ∧ (∀ e ∈ xs, jsToString e ≠ "")) →
      formatToDynamoItem (.arr xs) = .ok (.obj [("SS", .arr xs)])) := by
  refine ⟨?_, ?_⟩
  case refine_2 =>
    rintro ⟨⟨e, he, hef⟩, hall⟩
    have hN : xs.all numberTruthy = false :=
      List.all_eq_false.mpr ⟨e, he, by simp [hef]⟩
    have hS : xs.all stringTruthy = true := by
      rw [List.all_eq_true]
      intro x hx
      simpa [stringTruthy] using hall x hx
    simp only [formatToDynamoItem, hN, hS, Bool.false_eq_true, if_false, if_true]
  have hstr : ∀ e : JVal, (¬ stringTruthy e = true) ↔ jsToString e = "" := fun e => by
    rw [Bool.not_eq_true, stringTruthy_eq_false_iff]
  simp only [formatToDynamoItem]
  by_cases hN : xs.all numberTruthy
  · rw [hN]
    simp only [if_true]
    constructor
    · intro h; exact Except.noConfusion h
    · rintro ⟨⟨e, he, hfalse⟩, -⟩
      rw [List.all_eq_true] at hN
      rw [hN e he] at hfalse
      exact Bool.noConfusion hfalse
  · rw [Bool.not_eq_true] at hN
    rw [hN]
    simp only [Bool.false_eq_true, if_false]
    by_cases hS : xs.all stringTruthy
    · rw [hS]
      simp only [if_true]
      constructor
      · intro h; exact Except.noConfusion h
      · rintro ⟨-, ⟨e, he, hempty⟩⟩
        rw [List.all_eq_true] at hS
        have := hS e he
        rw [stringTruthy, hempty] at this
        simp at this
    · rw [Bool.not_eq_true] at hS
      rw [hS]
      simp only [Bool.false_eq_true, if_false]
      constructor
      · intro _
        refine ⟨?_, ?_⟩
        · obtain ⟨e, he, hne⟩ := List.all_eq_false.mp hN
          exact ⟨e, he, Bool.not_eq_true _ |>.mp hne⟩
        · obtain ⟨e, he, hne⟩ := List.all_eq_false.mp hS
          exact ⟨e, he, (hstr e).mp hne⟩
      · intro _; trivial

/-- C2 witness: the no-throw clause of the amended claim at the mixed array
`[1, "a"]`, whose number coercions are not all truthy but whose string
coercions are all non-empty. -/
theorem claim_C2_witness :
    ((∃ e ∈ [JVal.num 1, JVal.str "a"], numberTruthy e = false) ∧
     (∀ e ∈ [JVal.num 1, JVal.str "a"], jsToString e ≠ "")) ∧
    formatToDynamoItem (.arr [JVal.num 1, JVal.str "a"]) =
      .ok (.obj [("SS", .arr [JVal.num 1, JVal.str "a"])]) :=
  ⟨by decide, (claim_C2_theorem [JVal.num 1, JVal.str "a"]).2 (by decide)⟩

/-- C3 is false as stated: `Encode(true)` returns without raising, and its
result `{}` is an empty mapping carrying no tag at all, not a single-entry
mapping with exactly one tag among N, S, NS, SS. -/
theorem claim_C3_counterexample :
    formatToDynamoItem (.bool true) = .ok (.obj []) ∧
    isSingleRecognizedTag (.obj []) = false :=
  ⟨rfl, rfl⟩

/-- C3 (amended): every attribute `Encode` returns is either the tagless
empty mapping — produced exactly for the input `true` — or a single-entry
mapping with one recognized tag; numeric payloads under `N`/`NS` are always
carried as text; an `SS` payload repeats the raw input elements (so it can
carry numbers, as for input `[0]`). -/
theorem claim_C3_theorem (v a : JVal) (h : formatToDynamoItem v = .ok a) :
    ((a = .obj []) ↔ v = .bool true) ∧
    (v ≠ .bool true → isSingleRecognizedTag a = true) ∧
    numericPayloadIsText a = true ∧
    (∀ es, a = .obj [("SS", .arr es)] → v = .arr es) := by
  cases v with
  | arr xs =>
    simp only [formatToDynamoItem] at h
    by_cases hN : xs.all numberTruthy
    · rw [hN] at h
      simp only [if_true] at h
      obtain rfl : a = _ := (Except.ok.inj h).symm
      refine ⟨by simp, fun _ => rfl, ?_, by simp⟩
      simp only [numericPayloadIsText]
      rw [List.all_eq_true]
      intro e he
      obtain ⟨x, _, rfl⟩ := List.mem_map.mp he
      rfl
    · rw [Bool.not_eq_true] at hN
      rw [hN] at h
      simp only [Bool.false_eq_true, if_false] at h
      by_cases hS : xs.all stringTruthy
      · rw [hS] at h
        simp only [if_true] at h
        obtain rfl : a = _ := (Except.ok.inj h).symm
        refine ⟨by simp, fun _ => rfl, rfl, fun es heq => ?_⟩
        simp only [JVal.obj.injEq, List.cons.injEq, Prod.mk.injEq, JVal.arr.injEq, and_true, true_and] at heq
        rw [heq]
      · rw [Bool.not_eq_true] at hS
        rw [hS] at h
        simp only [Bool.false_eq_true, if_false] at h
        exact Except.noConfusion h
  | num n =>
    obtain rfl : a = _ := (Except.ok.inj h).symm
    exact ⟨by simp, fun _ => rfl, rfl, by simp⟩
  | nan =>
    obtain rfl : a = _ := (Except.ok.inj h).symm
    exact ⟨by simp, fun _ => rfl, rfl, by simp⟩
  | str s =>
    obtain rfl : a = _ := (Except.ok.inj h).symm
    exact ⟨by simp, fun _ => rfl, rfl, by simp⟩
  | bool b =>
    cases b with
    | true =>
      obtain rfl : a = _ := (Except.ok.inj h).symm
      exact ⟨by simp, fun hb => absurd rfl hb, rfl, by simp⟩
    | false => exact Except.noConfusion h
  | null => exact Except.noConfusion h
  | undef => exact Except.noConfusion h
  | obj fields => exact Except.noConfusion h

/-- C3 witness: the amended claim at the concrete input `5`. -/
theorem claim_C3_witness :
    isSingleRecognizedTag (.obj [("N", .str "5")]) = true ∧
    numericPayloadIsText (.obj [("N", .str "5")]) = true :=
  ⟨(claim_C3_theorem (.num 5) (.obj [("N", .str "5")]) rfl).2.1 (by simp),
   (claim_C3_theorem (.num 5) (.obj [("N", .str "5")]) rfl).2.2.1⟩

/-- `Except` bind on a success reduces. -/
theorem okBind {α β : Type} (x : α) (f : α → Except JsError β) :
    (Except.ok x >>= f) = f x := rfl

/-- `Except` bind on a thrown error propagates the error. -/
theorem errorBind {α β : Type} (e : JsError) (f : α → Except JsError β) :
    ((Except.error e : Except JsError α) >>= f) = .error e := rfl

/-- `pure` in the `Except` monad is `Except.ok`. -/
theorem pureExcept {α : Type} (x : α) : (pure x : Except JsError α) = .ok x := rfl

/-- C4 is false as stated: `Decode(Encode("bob"))` is `{}`, not `"bob"` —
the decoder iterates its argument as a *record*, so the bare typed
attribute `{S: "bob"}` is treated as a record whose field `S` holds the
string `"bob"`, which carries no truthy tag property and is dropped. -/
theorem claim_C4_counterexample :
    formatToDynamoItem (.str "bob") = .ok (.obj [("S", .str "bob")]) ∧
    formatFromDynamoItem (.obj [("S", .str "bob")]) = .ok (.obj []) ∧
    JVal.obj [] ≠ .str "bob" :=
  ⟨rfl, rfl, by simp⟩

/-- C4 (amended): the round trip holds one record level up: for every
nonempty string `s` and field name `k`, decoding the record `{k: Encode(s)}`
yields `{k: s}`. -/
theorem claim_C4_theorem (k s : String) (a : JVal) (hs : s ≠ "")
    (h : formatToDynamoItem (.str s) = .ok a) :
    formatFromDynamoItem (.obj [(k, a)]) = .ok (.obj [(k, .str s)]) := by
  obtain rfl : a = .obj [("S", .str s)] := (Except.ok.inj h).symm
  have hb : (s != "") = true := by simpa using hs
  simp [formatFromDynamoItem, decodeFields, decodeTagged, getProp, truthy, hb, okBind, pureExcept]

/-- C4 witness: the amended round trip at `k = "name"`, `s = "bob"`. -/
theorem claim_C4_witness :
    (("bob" : String) ≠ "") ∧
    formatFromDynamoItem (.obj [("name", .obj [("S", .str "bob")])]) =
      .ok (.obj [("name", .str "bob")]) :=
  ⟨by decide, claim_C4_theorem "name" "bob" (.obj [("S", .str "bob")]) (by decide) rfl⟩

/-- Property reads only throw on `null`/`undefined` receivers. -/
theorem getProp_ok (v : JVal) (k : String) (h : isNullish v = false) :
    ∃ w, getProp v k = .ok w := by
  cases v <;> first
    | exact ⟨_, rfl⟩
    | simp [isNullish] at h

/-- The tag-decoding step succeeds on every non-nullish value. -/
theorem decodeTagged_ok (v : JVal) (h : isNullish v = false) :
    ∃ o, decodeTagged v = .ok o := by
  obtain ⟨wS, hS⟩ := getProp_ok v "S" h
  obtain ⟨wSS, hSS⟩ := getProp_ok v "SS" h
  obtain ⟨wN, hN⟩ := getProp_ok v "N" h
  obtain ⟨wNS, hNS⟩ := getProp_ok v "NS" h
  simp only [decodeTagged, hS, hSS, hN, hNS, okBind]
  split_ifs <;> exact ⟨_, rfl⟩

/-- Decoding a record of non-nullish values never throws. -/
theorem decodeFields_ok (fields : List (String × JVal))
    (h : ∀ kv ∈ fields, isNullish kv.2 = false) :
    ∃ out, decodeFields fields = .ok out := by
  induction fields with
  | nil => exact ⟨[], rfl⟩
  | cons f fs ih =>
    obtain ⟨o, ho⟩ := decodeTagged_ok f.2 (h f (List.mem_cons_self f fs))
    obtain ⟨out, hout⟩ := ih (fun kv hkv => h kv (List.mem_cons_of_mem f hkv))
    cases o with
    | some w => exact ⟨(f.1, w) :: out, by simp [decodeFields, ho, hout, okBind, pureExcept]⟩
    | none => exact ⟨out, by simp [decodeFields, ho, hout, okBind, pureExcept]⟩

/-- On an object, the decoder's property read is the own-property lookup. -/
theorem getProp_obj (fields : List (String × JVal)) (k : String) :
    getProp (.obj fields) k = .ok (tagRead fields k) := rfl

/-- The tag-decoding step drops exactly the attributes none of whose four
recognized tag reads is truthy. -/
theorem decodeTagged_noTag (attr : List (String × JVal))
    (h : carriesNoRecognizedTag attr = true) :
    decodeTagged (.obj attr) = .ok none := by
  have h4 : ((truthy (tagRead attr "S") = false ∧ truthy (tagRead attr "SS") = false) ∧
      truthy (tagRead attr "N") = false) ∧ truthy (tagRead attr "NS") = false := by
    simpa [carriesNoRecognizedTag, Bool.and_eq_true, Bool.not_eq_true'] using h
  simp [decodeTagged, getProp_obj, okBind, pureExcept, h4.1.1.1, h4.1.1.2, h4.1.2, h4.2]

/-- A field whose value is an attribute carrying no truthy recognized tag is
silently dropped, wherever it stands in the record. -/
theorem decodeFields_insert (f₁ f₂ : List (String × JVal)) (k : String)
    (attr : List (String × JVal)) (hattr : carriesNoRecognizedTag attr = true) :
    decodeFields (f₁ ++ (k, .obj attr) :: f₂) = decodeFields (f₁ ++ f₂) := by
  induction f₁ with
  | nil =>
    simp only [List.nil_append, decodeFields, decodeTagged_noTag attr hattr, okBind]
    cases h : decodeFields f₂ <;> simp [h, okBind, errorBind, pureExcept]
  | cons f fs ih =>
    simp only [List.cons_append, decodeFields, List.append_eq, ih]

/-- C5 (amended): decoding a record never raises provided no field value is
`null`/`undefined` (totality over the typed-attribute domain), and a field
whose value is any attribute carrying no truthy recognized tag among
S, SS, N, NS — the empty attribute, or one with only unrecognized tags such
as `B` — is silently omitted from the decoded result. -/
theorem claim_C5_theorem (fields f₁ f₂ : List (String × JVal)) (k : String)
    (attr : List (String × JVal))
    (h : ∀ kv ∈ fields, isNullish kv.2 = false)
    (hattr : carriesNoRecognizedTag attr = true) :
    isOkE (formatFromDynamoItem (.obj fields)) = true ∧
    formatFromDynamoItem (.obj (f₁ ++ (k, .obj attr) :: f₂)) =
      formatFromDynamoItem (.obj (f₁ ++ f₂)) := by
  constructor
  · obtain ⟨out, hout⟩ := decodeFields_ok fields h
    simp [formatFromDynamoItem, hout, isOkE, okBind, pureExcept]
  · simp [formatFromDynamoItem, decodeFields_insert f₁ f₂ k attr hattr]

/-- C5 is false as stated over all inputs: decoding the record `{k: null}`
throws a `TypeError` (the tag read `val.S` is a property access on
`null`), so `Decode` can raise. -/
theorem claim_C5_counterexample :
    formatFromDynamoItem (.obj [("k", .null)]) =
      .error (.typeError "Cannot read properties of null (reading S)") := rfl

/-- C5 witness: the amended claim at a concrete two-field record and a
concrete insertion of a field whose attribute carries only the unrecognized
tag `B`. -/
theorem claim_C5_witness :
    ((∀ kv ∈ [("a", JVal.obj [("S", .str "x")]), ("b", JVal.obj [("N", .str "2")])],
        isNullish kv.2 = false) ∧
     carriesNoRecognizedTag [("B", JVal.str "x")] = true) ∧
    isOkE (formatFromDynamoItem
      (.obj [("a", .obj [("S", .str "x")]), ("b", .obj [("N", .str "2")])])) = true ∧
    formatFromDynamoItem
        (.obj ([("a", .obj [("S", .str "x")])] ++
          ("mid", .obj [("B", .str "x")]) :: [("b", .obj [("N", .str "2")])])) =
      formatFromDynamoItem (.obj ([("a", .obj [("S", .str "x")])] ++ [("b", .obj [("N", .str "2")])])) :=
  ⟨⟨by decide, by decide⟩,
   (claim_C5_theorem [("a", .obj [("S", .str "x")]), ("b", .obj [("N", .str "2")])]
      [("a", .obj [("S", .str "x")])] [("b", .obj [("N", .str "2")])] "mid"
      [("B", JVal.str "x")] (by decide) (by decide)).1,
   (claim_C5_theorem [("a", .obj [("S", .str "x")]), ("b", .obj [("N", .str "2")])]
      [("a", .obj [("S", .str "x")])] [("b", .obj [("N", .str "2")])] "mid"
      [("B", JVal.str "x")] (by decide) (by decide)).2⟩

/-- Wrapping distinct keys between a fixed head and tail keeps them
distinct. -/
theorem wrapKey_inj (p sfx a b : String) (h : p ++ a ++ sfx = p ++ b ++ sfx) : a = b := by
  have hd := congrArg String.data h
  simp only [String.data_append] at hd
  have h1 := List.append_cancel_right hd
  have h2 := List.append_cancel_left h1
  cases a; cases b; exact congrArg String.mk h2

/-- JS property assignment with a fresh key appends the binding. -/
theorem objSet_fresh {α : Type} (l : List (String × α)) (k : String) (v : α)
    (h : ∀ f ∈ l, f.1 ≠ k) : objSet l k v = l ++ [(k, v)] := by
  induction l with
  | nil => rfl
  | cons f fs ih =>
    have hf : f.1 ≠ k := h f (List.mem_cons_self f fs)
    simp only [objSet, if_neg hf, List.cons_append]
    rw [ih (fun g hg => h g (List.mem_cons_of_mem f hg))]

/-- Closed form of the `updateItem` loop for any accumulator state whose
existing placeholder keys do not collide with the generated ones. -/
theorem updateItemLoop_spec (keys : List (String × JVal)) (ws : List JVal)
    (names : List (String × String)) (values : List (String × JVal)) (exprs : List String)
    (henc : keys.map (fun kv => formatToDynamoItem kv.2) = ws.map Except.ok)
    (hnd : (keys.map Prod.fst).Nodup)
    (hfn : ∀ f ∈ names, ∀ kv ∈ keys, f.1 ≠ "#" ++ kv.1 ++ "Attribute")
    (hfv : ∀ f ∈ values, ∀ kv ∈ keys, f.1 ≠ ":" ++ kv.1 ++ "Value") :
    updateItemLoop keys (names, values, exprs) = .ok
      (names ++ keys.map (fun kv => ("#" ++ kv.1 ++ "Attribute", kv.1)),
       values ++ (keys.zip ws).map (fun p => (":" ++ p.1.1 ++ "Value", p.2)),
       exprs ++ keys.map (fun kv => "#" ++ kv.1 ++ "Attribute = :" ++ kv.1 ++ "Value")) := by
  induction keys generalizing ws names values exprs with
  | nil =>
    have : ws = [] := by
      cases ws with
      | nil => rfl
      | cons w ws => simp at henc
    subst this
    simp [updateItemLoop]
  | cons kv rest ih =>
    cases ws with
    | nil => simp at henc
    | cons w ws =>
      simp only [List.map_cons, List.cons.injEq] at henc
      obtain ⟨hw, henc'⟩ := henc
      simp only [List.map_cons, List.nodup_cons] at hnd
      obtain ⟨hknotin, hnd'⟩ := hnd
      have hfn1 : ∀ f ∈ names, f.1 ≠ "#" ++ kv.1 ++ "Attribute" :=
        fun f hf => hfn f hf kv (List.mem_cons_self kv rest)
      have hfv1 : ∀ f ∈ values, f.1 ≠ ":" ++ kv.1 ++ "Value" :=
        fun f hf => hfv f hf kv (List.mem_cons_self kv rest)
      simp only [updateItemLoop, hw, okBind]
      rw [objSet_fresh names _ _ hfn1, objSet_fresh values _ _ hfv1]
      rw [ih ws _ _ _ henc' hnd' ?_ ?_]
      · simp
      · intro f hf kv' hkv'
        rcases List.mem_append.mp hf with hf | hf
        · exact hfn f hf kv' (List.mem_cons_of_mem kv hkv')
        · simp only [List.mem_singleton] at hf
          subst hf
          intro hcontra
          have : kv.1 = kv'.1 := wrapKey_inj "#" "Attribute" _ _ hcontra
          exact hknotin (this ▸ List.mem_map_of_mem Prod.fst hkv')
      · intro f hf kv' hkv'
        rcases List.mem_append.mp hf with hf | hf
        · exact hfv f hf kv' (List.mem_cons_of_mem kv hkv')
        · simp only [List.mem_singleton] at hf
          subst hf
          intro hcontra
          have : kv.1 = kv'.1 := wrapKey_inj ":" "Value" _ _ hcontra
          exact hknotin (this ▸ List.mem_map_of_mem Prod.fst hkv')

/-- C9: `updateItem` maps each field `k` with value `v`, in input order, to
the name placeholder `#<k>Attribute` bound to `k`, the value placeholder
`:<k>Value` bound to `Encode(v)` (the `ws` list of encoded values), and the
fragment `#<k>Attribute = :<k>Value`; the final `UpdateExpression` is
`"SET "` followed by the fragments joined by `", "` in input order.
Stated under the claim's implicit premises that every value encodes and
that field names are distinct (JS object keys). -/
theorem claim_C9_theorem (keys : List (String × JVal)) (ws : List JVal)
    (hnd : (keys.map Prod.fst).Nodup)
    (henc : keys.map (fun kv => formatToDynamoItem kv.2) = ws.map Except.ok) :
    updateItem keys = .ok
      { ExpressionAttributeNames := keys.map (fun kv => ("#" ++ kv.1 ++ "Attribute", kv.1)),
        ExpressionAttributeValues := (keys.zip ws).map (fun p => (":" ++ p.1.1 ++ "Value", p.2)),
        UpdateExpression := "SET " ++ String.intercalate ", "
          (keys.map (fun kv => "#" ++ kv.1 ++ "Attribute = :" ++ kv.1 ++ "Value")) } := by
  unfold updateItem
  rw [updateItemLoop_spec keys ws [] [] [] henc hnd (by simp) (by simp)]
  simp [okBind, pureExcept]

/-- C9 witness: the record `{age: 5, name: "bob"}` produces exactly the
expression and placeholder mappings of the claim, with `{N: "5"}` and
`{S: "bob"}` as the bound values. -/
theorem claim_C9_witness :
    ((([("age", JVal.num 5), ("name", JVal.str "bob")]).map Prod.fst).Nodup ∧
     ([("age", JVal.num 5), ("name", JVal.str "bob")]).map (fun kv => formatToDynamoItem kv.2) =
       ([JVal.obj [("N", .str "5")], JVal.obj [("S", .str "bob")]]).map Except.ok) ∧
    updateItem [("age", JVal.num 5), ("name", JVal.str "bob")] = .ok
      { ExpressionAttributeNames := [("#ageAttribute", "age"), ("#nameAttribute", "name")],
        ExpressionAttributeValues :=
          [(":ageValue", .obj [("N", .str "5")]), (":nameValue", .obj [("S", .str "bob")])],
        UpdateExpression := "SET #ageAttribute = :ageValue, #nameAttribute = :nameValue" } :=
  ⟨⟨by decide, rfl⟩,
   claim_C9_theorem [("age", JVal.num 5), ("name", JVal.str "bob")]
     [JVal.obj [("N", .str "5")], JVal.obj [("S", .str "bob")]] (by decide) rfl⟩
